import Mathlib

/-!
Shallow embedding of the zkSync ChangePubKey transition handler
(`core/plasma/src/handler/change_pubkey.rs`) and the JSON-RPC server
helpers (`core/bin/zksync_api/src/api_server/rpc_server/mod.rs`).

Machine integers (account ids, nonces, token ids) and arbitrary-precision
amounts (`BigUint`) are embedded as `Nat`; addresses and key hashes are
opaque fixed-length byte strings in the source and are embedded as `Nat`
tokens. Fallible Rust functions returning `Result` become `Except`;
mutation of `&mut self` becomes explicit state passing, threading the
ledger through every call exactly where the source mutates it.
-/

namespace ZkSync

/-! ## Association lists

The source stores balances, accounts and caches in map structures; they are
embedded as association lists over `Nat` keys with first-match lookup and
replace-or-append update. -/

/-- First-match lookup in an association list. -/
def assocGet {α : Type} : List (Nat × α) → Nat → Option α
  | [], _ => none
  | (k, v) :: rest, key => if k = key then some v else assocGet rest key

/-- Replace the first binding of the key, or append a fresh one. -/
def assocSet {α : Type} : List (Nat × α) → Nat → α → List (Nat × α)
  | [], key, v => [(key, v)]
  | (k, v0) :: rest, key, v =>
    if k = key then (key, v) :: rest else (k, v0) :: assocSet rest key v

/-! ## Protocol parameters -/

/-- Modelled from the spec: `params::ETH_TOKEN_ID`, the token identifier of
the base (ETH) token; the spec's concrete scenario names it token 0. The
`params` module is not under `src/`. -/
def ETH_TOKEN_ID : Nat := 0

/-- Modelled from the spec: `params::max_account_id()`, the protocol-wide
maximum account id ("bounded by a protocol-wide maximum (ledger depth
limit)"). The `params` module is not under `src/`; the concrete value is a
fixed constant derived from the account-tree depth. -/
def max_account_id : Nat := 2 ^ 24 - 2

/-! ## Accounts and the ledger -/

/-- Modelled from the spec: a ledger entry — address, replay-protection
nonce, authorization key hash, and a token-indexed balance map where an
absent entry means zero (§3 of the spec; the `Account` type is not under
`src/`). -/
structure Account where
  address : Nat
  nonce : Nat
  pub_key_hash : Nat
  balances : List (Nat × Nat)
deriving DecidableEq

/-- Modelled from the spec: `Account::get_balance` — the balance for a
token, zero when no entry exists. -/
def Account.get_balance (a : Account) (token : Nat) : Nat :=
  match assocGet a.balances token with
  | some b => b
  | none => 0

/-- Modelled from the spec: `Account::sub_balance` — debit an amount from
one token's balance. -/
def Account.sub_balance (a : Account) (token : Nat) (amount : Nat) : Account :=
  { a with balances := assocSet a.balances token (a.get_balance token - amount) }

/-- Modelled from the spec: the ledger (`PlasmaState`) — the account table
keyed by account id (§3, §4.1; the container itself is not under `src/`). -/
structure PlasmaState where
  accounts : List (Nat × Account)
deriving DecidableEq

/-- Modelled from the spec: `PlasmaState::get_account` — point lookup by
id, no side effects (§4.1). -/
def PlasmaState.get_account (s : PlasmaState) (id : Nat) : Option Account :=
  assocGet s.accounts id

/-- First account whose address matches, together with its id. -/
def findByAddress : List (Nat × Account) → Nat → Option (Nat × Account)
  | [], _ => none
  | (id, a) :: rest, addr =>
    if a.address = addr then some (id, a) else findByAddress rest addr

/-- Modelled from the spec: `PlasmaState::get_account_by_address` — reverse
lookup returning the id and the account, no side effects (§4.1). -/
def PlasmaState.get_account_by_address (s : PlasmaState) (addr : Nat) :
    Option (Nat × Account) :=
  findByAddress s.accounts addr

/-- Modelled from the spec: `PlasmaState::insert_account` — atomically
replace the full account record; the only mutation entry point (§4.1). -/
def PlasmaState.insert_account (s : PlasmaState) (id : Nat) (a : Account) :
    PlasmaState :=
  { accounts := assocSet s.accounts id a }

/-! ## Transactions, operations, errors -/

/-- The `ChangePubKey` transaction (`models::node::tx::ChangePubKey`):
target address, declared account id, new key hash, nonce, fee token and fee
amount, and an optional external (Ethereum) signature. The signature is
embedded by an opaque token handed to the recovery function. -/
structure ChangePubKey where
  account : Nat
  account_id : Nat
  new_pk_hash : Nat
  nonce : Nat
  fee_token : Nat
  fee : Nat
  eth_signature : Option Nat
deriving DecidableEq

/-- Modelled from the spec: `ChangePubKey::verify_eth_signature` — recover
the signer address from the supplied external signature, `none` when no
signature is supplied or recovery fails. The cryptographic recovery lives
outside `src/` and is abstracted as the parameter `recover`. -/
def ChangePubKey.verify_eth_signature (recover : Nat → Option Nat)
    (tx : ChangePubKey) : Option Nat :=
  tx.eth_signature.bind recover

/-- The resolved operation `ChangePubKeyOp`: the transaction paired with
the ledger-resolved account id. -/
structure ChangePubKeyOp where
  tx : ChangePubKey
  account_id : Nat
deriving DecidableEq

/-- One fee output of an operation (`CollectedFee`): token id and amount. -/
structure CollectedFee where
  token : Nat
  amount : Nat
deriving DecidableEq

/-- The account-diff records emitted by the handler
(`models::node::AccountUpdate`), restricted to the variants this handler
emits. -/
inductive AccountUpdate where
  | ChangePubKeyHash (old_pub_key_hash old_nonce new_pub_key_hash new_nonce : Nat)
  | UpdateBalance (token old_balance new_balance old_nonce new_nonce : Nat)
deriving DecidableEq

/-- The tagged executed operation (`FranklinOp`), restricted to the variant
this handler produces. -/
inductive FranklinOp where
  | ChangePubKeyOffchain (op : ChangePubKeyOp)
deriving DecidableEq

/-- Successful execution output (`OpSuccess`): optional fee, ordered
updates, and the tagged operation. -/
structure OpSuccess where
  fee : Option CollectedFee
  updates : List (Nat × AccountUpdate)
  executed_op : FranklinOp
deriving DecidableEq

/-- The failure taxonomy of the handler. The source raises `failure::Error`
values with fixed messages; the spec names them `AccountNotFound`,
`SignatureInvalid`, `AccountIdMismatch`, `AccountIdOutOfRange`,
`NonceMismatch`, `InsufficientBalance`. `MissingAccountPanic` embeds the
distinct outcome of the unchecked `.unwrap()` at the top of `apply_op`. -/
inductive TxError where
  | AccountNotFound
  | SignatureInvalid
  | AccountIdMismatch
  | AccountIdOutOfRange
  | NonceMismatch
  | InsufficientBalance
  | MissingAccountPanic
deriving DecidableEq

/-! ## The ChangePubKey handler -/

/-- `create_op` (resolve): look up the account by address; check the
external signature (accepted when absent, otherwise its recovered address
must equal the account's address); check the declared account id against
the resolved id; check the resolved id against the protocol maximum. Pure:
takes the ledger immutably and returns only the resolved operation. -/
def create_op (recover : Nat → Option Nat) (s : PlasmaState)
    (tx : ChangePubKey) : Except TxError ChangePubKeyOp :=
  match s.get_account_by_address tx.account with
  | none => .error .AccountNotFound
  | some (account_id, account) =>
    if tx.eth_signature = none ∨
        ChangePubKey.verify_eth_signature recover tx = some account.address then
      if account_id = tx.account_id then
        if account_id ≤ max_account_id then
          .ok { tx := tx, account_id := account_id }
        else .error .AccountIdOutOfRange
      else .error .AccountIdMismatch
    else .error .SignatureInvalid

/-- `apply_op` (apply): fetch the account (the source unwraps; a missing
account is the panic outcome `MissingAccountPanic`); require the
transaction nonce to equal the account nonce; bump the nonce and replace
the key hash on a working copy; require the fee-token balance to cover the
fee; debit the fee; commit via `insert_account`; emit the key-hash update
then the balance update; return a `CollectedFee` with token
`ETH_TOKEN_ID`. The ledger is threaded explicitly: the returned state is
the input state on every non-ok outcome, exactly as the single
`insert_account` call sits on the success path alone. -/
def apply_op (s : PlasmaState) (op : ChangePubKeyOp) :
    Except TxError (Option CollectedFee × List (Nat × AccountUpdate)) × PlasmaState :=
  match s.get_account op.account_id with
  | none => (.error .MissingAccountPanic, s)
  | some account =>
    let old_balance := account.get_balance op.tx.fee_token
    let old_pub_key_hash := account.pub_key_hash
    let old_nonce := account.nonce
    if op.tx.nonce = account.nonce then
      let account1 : Account :=
        { account with nonce := account.nonce + 1, pub_key_hash := op.tx.new_pk_hash }
      if old_balance ≥ op.tx.fee then
        let account2 := account1.sub_balance op.tx.fee_token op.tx.fee
        let updates : List (Nat × AccountUpdate) :=
          [(op.account_id,
             .ChangePubKeyHash old_pub_key_hash old_nonce
               account2.pub_key_hash account2.nonce),
           (op.account_id,
             .UpdateBalance op.tx.fee_token old_balance
               (account2.get_balance op.tx.fee_token) old_nonce account2.nonce)]
        let fee : CollectedFee := { token := ETH_TOKEN_ID, amount := op.tx.fee }
        (.ok (some fee, updates), s.insert_account op.account_id account2)
      else (.error .InsufficientBalance, s)
    else (.error .NonceMismatch, s)

/-- `apply_tx` (execute): resolve via `create_op`, then — only on success —
mutate via `apply_op`, tagging the result as `ChangePubKeyOffchain`. -/
def apply_tx (recover : Nat → Option Nat) (s : PlasmaState)
    (tx : ChangePubKey) : Except TxError OpSuccess × PlasmaState :=
  match create_op recover s tx with
  | .error e => (.error e, s)
  | .ok op =>
    match apply_op s op with
    | (.error e, s1) => (.error e, s1)
    | (.ok (fee, updates), s1) =>
      (.ok { fee := fee, updates := updates,
             executed_op := .ChangePubKeyOffchain op }, s1)

/-! ## JSON-RPC server: receipt cache -/

/-- Modelled from the spec: a stored transaction receipt
(`TxReceiptResponse`, declared in the storage crate outside `src/`): the
`verified` finality flag the caching logic branches on, plus the remaining
payload abstracted into one field. -/
structure TxReceiptResponse where
  verified : Bool
  payload : Nat
deriving DecidableEq

/-- The RPC-level error values the server helpers produce
(`jsonrpc_core::Error`), restricted to the constructors these helpers
use. -/
inductive RpcError where
  | internal_error
  | invalid_params (msg : String)
deriving DecidableEq

/-- `RpcApp::get_tx_receipt`: serve from the receipt cache on a hit;
otherwise query storage (whose failure becomes an error result), and cache
the fetched receipt only when its `verified` flag is set, returning it
either way. Storage access is embedded as a function from the hash to the
query outcome; the cache is threaded explicitly. -/
def get_tx_receipt (storage : Nat → Except RpcError (Option TxReceiptResponse))
    (cache : List (Nat × TxReceiptResponse)) (tx_hash : Nat) :
    Except RpcError (Option TxReceiptResponse) × List (Nat × TxReceiptResponse) :=
  match assocGet cache tx_hash with
  | some tx_receipt => (.ok (some tx_receipt), cache)
  | none =>
    match storage tx_hash with
    | .error e => (.error e, cache)
    | .ok none => (.ok none, cache)
    | .ok (some tx_receipt) =>
      if tx_receipt.verified then
        (.ok (some tx_receipt), assocSet cache tx_hash tx_receipt)
      else (.ok (some tx_receipt), cache)

/-! ## JSON-RPC server: fee-ticker helpers

Each helper sends a request over the ticker mpsc channel carrying a
one-shot response slot, then awaits the slot; both awaited results are
unwrapped with `expect`, so a closed channel ends the process. The channel
interaction is embedded by two inputs: `receiver_dropped` (the mpsc send
fails because the ticker receiver is gone) and `response` (`none` when the
one-shot sender was dropped, otherwise the value the ticker sent back). -/

/-- The three radically different ways a helper call can end: a
process-fatal `expect` failure with its message, a value, or an RPC error
result handed to the caller. -/
inductive CallOutcome (α : Type) where
  | processPanic (msg : String)
  | ok (a : α)
  | rpcError (e : RpcError)
deriving DecidableEq

/-- Modelled from the spec: `PriceError` (declared in the fee-ticker module
outside `src/`): `TokenNotFound` carries a message and is mapped to
`invalid_params`; every other variant maps to `internal_error`. -/
inductive PriceError where
  | token_not_found (msg : String)
  | api_error (msg : String)
  | db_error (msg : String)
deriving DecidableEq

/-- `RpcApp::token_allowed_for_fees`: `expect` on the send, `expect` on the
response slot, then map a ticker-side error to `internal_error`. -/
def token_allowed_for_fees (receiver_dropped : Bool)
    (response : Option (Except String Bool)) : CallOutcome Bool :=
  if receiver_dropped then .processPanic "ticker receiver dropped"
  else match response with
    | none => .processPanic "ticker answer sender dropped"
    | some (.error _) => .rpcError .internal_error
    | some (.ok allowed) => .ok allowed

/-- `RpcApp::ticker_batch_fee_request`: same channel discipline, response
type `ResponseBatchFee` abstracted to an opaque value. -/
def ticker_batch_fee_request (receiver_dropped : Bool)
    (response : Option (Except String Nat)) : CallOutcome Nat :=
  if receiver_dropped then .processPanic "ticker receiver dropped"
  else match response with
    | none => .processPanic "ticker answer sender dropped"
    | some (.error _) => .rpcError .internal_error
    | some (.ok resp) => .ok resp

/-- `RpcApp::ticker_request`: same channel discipline, response type
`ResponseFee` abstracted to an opaque value. -/
def ticker_request (receiver_dropped : Bool)
    (response : Option (Except String Nat)) : CallOutcome Nat :=
  if receiver_dropped then .processPanic "ticker receiver dropped"
  else match response with
    | none => .processPanic "ticker answer sender dropped"
    | some (.error _) => .rpcError .internal_error
    | some (.ok resp) => .ok resp

/-- `RpcApp::ticker_price_request`: same channel discipline; a
`TokenNotFound` ticker error becomes `invalid_params` with its message, any
other ticker error becomes `internal_error`. -/
def ticker_price_request (receiver_dropped : Bool)
    (response : Option (Except PriceError Nat)) : CallOutcome Nat :=
  if receiver_dropped then .processPanic "ticker receiver dropped"
  else match response with
    | none => .processPanic "ticker answer sender dropped"
    | some (.error (.token_not_found msg)) => .rpcError (.invalid_params msg)
    | some (.error (.api_error _)) => .rpcError .internal_error
    | some (.error (.db_error _)) => .rpcError .internal_error
    | some (.ok resp) => .ok resp

/-! ## JSON-RPC server: IP-insertion middleware -/

/-- JSON values as far as the middleware manipulates them: it pushes `Null`
and `String` values and treats everything else opaquely. -/
inductive JValue where
  | null
  | str (s : String)
  | other (tag : Nat)
deriving DecidableEq

/-- `jsonrpc_core::Params`: the middleware rewrites only the `Array` form;
`Map` and `None` parameter forms pass through untouched. -/
inductive JParams where
  | array (xs : List JValue)
  | map (tag : Nat)
  | noParams
deriving DecidableEq

/-- A parsed JSON-RPC method call (`jsonrpc_core::MethodCall`): the method
name and parameters the middleware inspects, plus the remaining envelope
fields (version, request id) abstracted into one field that rewriting must
preserve. -/
structure MethodCall where
  method : String
  params : JParams
  envelope : Nat
deriving DecidableEq

/-- Arity bounds of an IP-tracked method (`MethodWithIpDescription`); the
last position up to `maximum_params` is always the IP parameter. -/
structure MethodWithIpDescription where
  minimum_params : Nat
  maximum_params : Nat
deriving DecidableEq

/-- The table of the four IP-tracked methods with their arity bounds. -/
def methods_with_ip (method : String) : Option MethodWithIpDescription :=
  if method = "tx_submit" then some ⟨1, 4⟩
  else if method = "submit_txs_batch" then some ⟨1, 3⟩
  else if method = "get_tx_fee" then some ⟨3, 4⟩
  else if method = "get_txs_batch_fee_in_wei" then some ⟨3, 4⟩
  else none

/-- `get_call_with_ip_if_needed`: on an IP-tracked method with array
parameters of in-bounds length, drop a parameter occupying the IP position,
pad the optional middle positions with `Null`, and append the
server-derived IP as the last parameter; every other call is returned
untouched. -/
def get_call_with_ip_if_needed (call : MethodCall) (ip : String) : MethodCall :=
  match methods_with_ip call.method with
  | none => call
  | some description =>
    match call.params with
    | .array params0 =>
      if params0.length > description.maximum_params ∨
          params0.length < description.minimum_params then call
      else
        let params1 :=
          if params0.length = description.maximum_params then params0.dropLast
          else params0
        let params2 := params1 ++
          List.replicate (description.maximum_params - 1 - params1.length) JValue.null
        { call with params := .array (params2 ++ [JValue.str ip]) }
    | .map _ => call
    | .noParams => call

/-! ## Association-list lemmas -/

/-- Looking up the key just set finds the value just set. -/
theorem assocGet_assocSet_self {α : Type} (l : List (Nat × α)) (k : Nat) (v : α) :
    assocGet (assocSet l k v) k = some v := by
  induction l with
  | nil => simp [assocSet, assocGet]
  | cons hd tl ih =>
    obtain ⟨k0, v0⟩ := hd
    by_cases hk : k0 = k
    · simp [assocSet, assocGet, hk]
    · simp [assocSet, assocGet, hk, ih]

/-- Every binding of an updated association list is an old binding or the
new one. -/
theorem mem_assocSet {α : Type} (l : List (Nat × α)) (k : Nat) (v : α)
    (p : Nat × α) (hp : p ∈ assocSet l k v) : p ∈ l ∨ p = (k, v) := by
  induction l with
  | nil => simpa [assocSet] using hp
  | cons hd tl ih =>
    obtain ⟨k0, v0⟩ := hd
    by_cases hk : k0 = k
    · simp only [assocSet, if_pos hk, List.mem_cons] at hp
      rcases hp with h | h
      · right; exact h
      · left; exact List.mem_cons_of_mem _ h
    · simp only [assocSet, if_neg hk, List.mem_cons] at hp
      rcases hp with h | h
      · left; exact h ▸ List.mem_cons_self _ _
      · rcases ih h with h1 | h1
        · left; exact List.mem_cons_of_mem _ h1
        · right; exact h1

/-- A successful address lookup names a key that is bound in the list. -/
theorem findByAddress_isSome_assocGet (l : List (Nat × Account)) (addr : Nat)
    (id : Nat) (a : Account) (h : findByAddress l addr = some (id, a)) :
    (assocGet l id).isSome := by
  induction l with
  | nil => simp [findByAddress] at h
  | cons hd tl ih =>
    obtain ⟨k0, a0⟩ := hd
    by_cases haddr : a0.address = addr
    · simp only [findByAddress, if_pos haddr, Option.some.injEq] at h
      obtain ⟨h1, _⟩ := Prod.mk.injEq .. ▸ h
      simp [assocGet, h1]
    · simp only [findByAddress, if_neg haddr] at h
      by_cases hk : k0 = id
      · simp [assocGet, hk]
      · simpa [assocGet, hk] using ih h

/-- Debiting a token leaves exactly the debited balance at that token. -/
theorem Account.get_balance_sub_balance (a : Account) (t f : Nat) :
    (a.sub_balance t f).get_balance t = a.get_balance t - f := by
  unfold Account.sub_balance Account.get_balance
  simp [assocGet_assocSet_self]

/-- `sub_balance` changes no field but the balance map. -/
theorem Account.sub_balance_nonce_pkh (a : Account) (t f : Nat) :
    (a.sub_balance t f).nonce = a.nonce ∧
    (a.sub_balance t f).pub_key_hash = a.pub_key_hash := ⟨rfl, rfl⟩

/-! ## Claims about the ChangePubKey handler -/

/-- Claim C2: on an account with nonce `N` and fee-token balance
`B ≥ F`, applying a ChangePubKey with nonce `N` and fee `F` succeeds,
leaves the account with nonce `N + 1`, the transaction's new key hash, and
fee-token balance `B − F`, and emits exactly the two updates
`[ChangePubKeyHash (old/new hash, N → N+1),
UpdateBalance (fee token, B → B − F, N → N+1)]` in that order. -/
theorem apply_op_success (s : PlasmaState) (op : ChangePubKeyOp) (acc : Account)
    (hacc : s.get_account op.account_id = some acc)
    (hnonce : op.tx.nonce = acc.nonce)
    (hbal : op.tx.fee ≤ acc.get_balance op.tx.fee_token) :
    (apply_op s op).1 = .ok (some { token := ETH_TOKEN_ID, amount := op.tx.fee },
      [(op.account_id, .ChangePubKeyHash acc.pub_key_hash acc.nonce
          op.tx.new_pk_hash (acc.nonce + 1)),
       (op.account_id, .UpdateBalance op.tx.fee_token
          (acc.get_balance op.tx.fee_token)
          (acc.get_balance op.tx.fee_token - op.tx.fee)
          acc.nonce (acc.nonce + 1))]) ∧
    ∃ acc1 : Account,
      (apply_op s op).2.get_account op.account_id = some acc1 ∧
      acc1.nonce = acc.nonce + 1 ∧
      acc1.pub_key_hash = op.tx.new_pk_hash ∧
      acc1.get_balance op.tx.fee_token =
        acc.get_balance op.tx.fee_token - op.tx.fee := by
  have hge : acc.get_balance op.tx.fee_token ≥ op.tx.fee := hbal
  have hsub : (Account.sub_balance { acc with nonce := acc.nonce + 1, pub_key_hash := op.tx.new_pk_hash } op.tx.fee_token op.tx.fee).get_balance op.tx.fee_token = acc.get_balance op.tx.fee_token - op.tx.fee :=
    Account.get_balance_sub_balance _ op.tx.fee_token op.tx.fee
  refine ⟨?_, Account.sub_balance { acc with nonce := acc.nonce + 1, pub_key_hash := op.tx.new_pk_hash } op.tx.fee_token op.tx.fee, ?_, rfl, rfl, hsub⟩
  · simp only [apply_op, hacc]
    rw [if_pos hnonce, if_pos hge]
    simp [hsub]
    exact ⟨rfl, rfl⟩
  · simp only [apply_op, hacc]
    rw [if_pos hnonce, if_pos hge]
    simp [PlasmaState.insert_account, PlasmaState.get_account, assocGet_assocSet_self]

/-- Propositional equality of `Except` outcomes is decidable whenever both
component types decide it; used to evaluate handler results on concrete
inputs. -/
instance {ε α : Type} [DecidableEq ε] [DecidableEq α] :
    DecidableEq (Except ε α) := fun a b =>
  match a, b with
  | .error e1, .error e2 =>
    if h : e1 = e2 then .isTrue (h ▸ rfl)
    else .isFalse fun hh => h (Except.error.inj hh)
  | .error _, .ok _ => .isFalse fun hh => Except.noConfusion hh
  | .ok _, .error _ => .isFalse fun hh => Except.noConfusion hh
  | .ok v1, .ok v2 =>
    if h : v1 = v2 then .isTrue (h ▸ rfl)
    else .isFalse fun hh => h (Except.ok.inj hh)

/-! ## Concrete sample data

The spec's concrete scenario: account id 34, address `0xABC` (2748), nonce
5, fee-token-0 balance 100, key hash `H0` (10); the replacement hash `H1`
is 11. -/

/-- The scenario account. -/
def demoAccount : Account :=
  { address := 2748, nonce := 5, pub_key_hash := 10, balances := [(0, 100)] }

/-- A one-account ledger holding the scenario account under id 34. -/
def demoState : PlasmaState := { accounts := [(34, demoAccount)] }

/-- The scenario transaction: correct nonce 5, fee 3 in token 0, no
external signature. -/
def demoTx : ChangePubKey :=
  { account := 2748, account_id := 34, new_pk_hash := 11, nonce := 5,
    fee_token := 0, fee := 3, eth_signature := none }

/-- The scenario transaction resolved against the ledger. -/
def demoOp : ChangePubKeyOp := { tx := demoTx, account_id := 34 }

/-- The scenario account with an extra balance of 50 in token 1. -/
def twoTokenAccount : Account :=
  { address := 2748, nonce := 5, pub_key_hash := 10,
    balances := [(0, 100), (1, 50)] }

/-- A one-account ledger holding `twoTokenAccount` under id 34. -/
def twoTokenState : PlasmaState := { accounts := [(34, twoTokenAccount)] }

/-- The scenario transaction redirected to fee token 1, resolved. -/
def feeToken1Op : ChangePubKeyOp :=
  { tx := { account := 2748, account_id := 34, new_pk_hash := 11, nonce := 5,
            fee_token := 1, fee := 3, eth_signature := none },
    account_id := 34 }

/-- The scenario with a stale nonce (4) and an excessive fee (150),
resolved. -/
def staleNonceBigFeeOp : ChangePubKeyOp :=
  { tx := { account := 2748, account_id := 34, new_pk_hash := 11, nonce := 4,
            fee_token := 0, fee := 150, eth_signature := none },
    account_id := 34 }

/-- The scenario with the correct nonce (5) and an excessive fee (150),
resolved. -/
def bigFeeOp : ChangePubKeyOp :=
  { tx := { account := 2748, account_id := 34, new_pk_hash := 11, nonce := 5,
            fee_token := 0, fee := 150, eth_signature := none },
    account_id := 34 }

/-- Witness for the claim C2 theorem at the spec's concrete scenario:
nonce 5 → 6, key hash 10 → 11, balance 100 → 97, two updates in order. -/
theorem apply_op_success_witness :
    demoState.get_account 34 = some demoAccount ∧
    demoOp.tx.nonce = demoAccount.nonce ∧
    demoOp.tx.fee ≤ demoAccount.get_balance 0 ∧
    (apply_op demoState demoOp).1 = .ok (some { token := 0, amount := 3 },
      [(34, .ChangePubKeyHash 10 5 11 6),
       (34, .UpdateBalance 0 100 97 5 6)]) := by
  have h := apply_op_success demoState demoOp demoAccount rfl rfl (by decide)
  refine ⟨rfl, rfl, by decide, ?_⟩
  rw [h.1]
  decide

/-- Claim C1 evaluated at the failing input: a transaction whose fee token
is 1 is debited in token 1 (balance 50 → 47), yet the returned
`CollectedFee` names token `ETH_TOKEN_ID` (0), not the transaction's fee
token — the token field is hardcoded at the end of `apply_op`. -/
theorem apply_op_fee_token_hardcoded :
    feeToken1Op.tx.fee_token = 1 ∧
    (apply_op twoTokenState feeToken1Op).1 =
      .ok (some { token := ETH_TOKEN_ID, amount := 3 },
        [(34, .ChangePubKeyHash 10 5 11 6),
         (34, .UpdateBalance 1 50 47 5 6)]) ∧
    ETH_TOKEN_ID ≠ 1 := by decide

/-- Claim C3 as frozen is false: an operation whose fee (150) exceeds the
fee-token balance (100) but whose nonce (4) also mismatches the account
nonce (5) fails with `NonceMismatch`, not `InsufficientBalance` — the
nonce check runs first. -/
theorem apply_op_insufficient_claim_false :
    demoState.get_account 34 = some demoAccount ∧
    demoAccount.get_balance 0 < staleNonceBigFeeOp.tx.fee ∧
    apply_op demoState staleNonceBigFeeOp = (.error .NonceMismatch, demoState) ∧
    TxError.NonceMismatch ≠ TxError.InsufficientBalance := by decide

/-- Claim C3 (amended): on an existing account, a nonce mismatch fails with
`NonceMismatch`, and a matching nonce with fee exceeding the fee-token
balance fails with `InsufficientBalance`; in both cases the returned ledger
is exactly the pre-call ledger — no field mutated, no update emitted, no
fee collected. -/
theorem apply_op_failure_atomic (s : PlasmaState) (op : ChangePubKeyOp)
    (acc : Account) (hacc : s.get_account op.account_id = some acc) :
    (op.tx.nonce ≠ acc.nonce → apply_op s op = (.error .NonceMismatch, s)) ∧
    (op.tx.nonce = acc.nonce → acc.get_balance op.tx.fee_token < op.tx.fee →
      apply_op s op = (.error .InsufficientBalance, s)) := by
  constructor
  · intro hne
    simp only [apply_op, hacc]
    rw [if_neg hne]
  · intro heq hlt
    simp only [apply_op, hacc]
    rw [if_pos heq, if_neg (not_le.mpr hlt)]

/-- Witness for the claim C3 theorem: nonce 4 against account nonce 5 gives
`NonceMismatch`; nonce 5 with fee 150 against balance 100 gives
`InsufficientBalance`; the ledger comes back untouched both times. -/
theorem apply_op_failure_atomic_witness :
    demoState.get_account 34 = some demoAccount ∧
    apply_op demoState staleNonceBigFeeOp = (.error .NonceMismatch, demoState) ∧
    apply_op demoState bigFeeOp = (.error .InsufficientBalance, demoState) := by
  refine ⟨rfl, ?_, ?_⟩
  · exact (apply_op_failure_atomic demoState staleNonceBigFeeOp demoAccount rfl).1
      (by decide)
  · exact (apply_op_failure_atomic demoState bigFeeOp demoAccount rfl).2 rfl
      (by decide)

/-- Claim C4: `apply_tx` is exactly `create_op` followed by `apply_op`:
when resolve fails, apply is never reached and the returned ledger is the
input ledger (resolve itself is pure — it takes the ledger immutably);
when resolve succeeds, the result is precisely `apply_op` on the resolved
operation, tagged as `ChangePubKeyOffchain`. -/
theorem apply_tx_is_create_then_apply (recover : Nat → Option Nat)
    (s : PlasmaState) (tx : ChangePubKey) :
    (∀ e, create_op recover s tx = .error e →
      apply_tx recover s tx = (.error e, s)) ∧
    (∀ op, create_op recover s tx = .ok op →
      apply_tx recover s tx =
        (match apply_op s op with
         | (.error e, s1) => (.error e, s1)
         | (.ok (fee, updates), s1) =>
           (.ok { fee := fee, updates := updates,
                  executed_op := .ChangePubKeyOffchain op }, s1))) := by
  constructor
  · intro e he
    simp [apply_tx, he]
  · intro op hop
    simp only [apply_tx, hop]

/-- Witness for the claim C4 theorem: on the empty ledger resolve fails
with `AccountNotFound` and execute returns that error with the ledger
untouched; on the scenario ledger resolve succeeds and execute returns
exactly the apply result. -/
theorem apply_tx_is_create_then_apply_witness :
    create_op (fun _ => none) { accounts := [] } demoTx = .error .AccountNotFound ∧
    apply_tx (fun _ => none) { accounts := [] } demoTx =
      (.error .AccountNotFound, { accounts := [] }) ∧
    create_op (fun _ => none) demoState demoTx = .ok demoOp ∧
    apply_tx (fun _ => none) demoState demoTx =
      (match apply_op demoState demoOp with
       | (.error e, s1) => (.error e, s1)
       | (.ok (fee, updates), s1) =>
         (.ok { fee := fee, updates := updates,
                executed_op := .ChangePubKeyOffchain demoOp }, s1)) := by
  refine ⟨rfl, ?_, rfl, ?_⟩
  · exact (apply_tx_is_create_then_apply (fun _ => none)
      { accounts := [] } demoTx).1 .AccountNotFound rfl
  · exact (apply_tx_is_create_then_apply (fun _ => none) demoState demoTx).2
      demoOp rfl

/-- Claim C5: once the address resolves to an account, the signature gate
accepts a transaction carrying no external signature (and resolve succeeds
outright when the remaining id checks pass); a supplied signature must
recover exactly the account's address, else resolve fails with
`SignatureInvalid`. -/
theorem create_op_signature_policy (recover : Nat → Option Nat)
    (s : PlasmaState) (tx : ChangePubKey) (id : Nat) (acc : Account)
    (h : s.get_account_by_address tx.account = some (id, acc)) :
    (tx.eth_signature = none →
      create_op recover s tx ≠ .error .SignatureInvalid ∧
      (id = tx.account_id → id ≤ max_account_id →
        create_op recover s tx = .ok { tx := tx, account_id := id })) ∧
    (tx.eth_signature ≠ none →
      (ChangePubKey.verify_eth_signature recover tx ≠ some acc.address →
        create_op recover s tx = .error .SignatureInvalid) ∧
      (ChangePubKey.verify_eth_signature recover tx = some acc.address →
        create_op recover s tx ≠ .error .SignatureInvalid)) := by
  constructor
  · intro hsig
    constructor
    · simp only [create_op, h]
      rw [if_pos (Or.inl hsig)]
      split
      · split <;> simp
      · simp
    · intro hid hle
      simp only [create_op, h]
      rw [if_pos (Or.inl hsig), if_pos hid, if_pos hle]
  · intro hsig
    constructor
    · intro hv
      simp only [create_op, h]
      rw [if_neg (not_or.mpr ⟨hsig, hv⟩)]
    · intro hv
      simp only [create_op, h]
      rw [if_pos (Or.inr hv)]
      split
      · split <;> simp
      · simp

/-- The scenario transaction carrying an external signature (opaque token
77). -/
def signedTx : ChangePubKey :=
  { account := 2748, account_id := 34, new_pk_hash := 11, nonce := 5,
    fee_token := 0, fee := 3, eth_signature := some 77 }

/-- Witness for the claim C5 theorem: no signature → resolve succeeds; a
signature recovering 999 ≠ 2748 → `SignatureInvalid`; a signature
recovering the account's address 2748 → not `SignatureInvalid`. -/
theorem create_op_signature_policy_witness :
    demoState.get_account_by_address demoTx.account = some (34, demoAccount) ∧
    demoTx.eth_signature = none ∧
    create_op (fun _ => none) demoState demoTx = .ok demoOp ∧
    signedTx.eth_signature ≠ none ∧
    ChangePubKey.verify_eth_signature (fun _ => some 999) signedTx ≠
      some demoAccount.address ∧
    create_op (fun _ => some 999) demoState signedTx = .error .SignatureInvalid ∧
    ChangePubKey.verify_eth_signature (fun _ => some 2748) signedTx =
      some demoAccount.address ∧
    create_op (fun _ => some 2748) demoState signedTx ≠ .error .SignatureInvalid := by
  have h1 := create_op_signature_policy (fun _ => none) demoState demoTx
    34 demoAccount rfl
  have h2 := create_op_signature_policy (fun _ => some 999) demoState signedTx
    34 demoAccount rfl
  have h3 := create_op_signature_policy (fun _ => some 2748) demoState signedTx
    34 demoAccount rfl
  refine ⟨rfl, rfl, ?_, by decide, by decide, ?_, by decide, ?_⟩
  · exact (h1.1 rfl).2 rfl (by decide)
  · exact (h2.2 (by decide)).1 (by decide)
  · exact (h3.2 (by decide)).2 (by decide)

/-- The scenario transaction with a wrong declared account id (77) and an
external signature. -/
def mismatchedSignedTx : ChangePubKey :=
  { account := 2748, account_id := 77, new_pk_hash := 11, nonce := 5,
    fee_token := 0, fee := 3, eth_signature := some 5 }

/-- Claim C6 as frozen is false: a transaction whose declared account id
(77) differs from the resolved id (34) but whose signature is also invalid
fails with `SignatureInvalid`, not `AccountIdMismatch` — the signature
check runs before the id checks, so the id errors are not raised
"regardless of the validity of the other transaction fields". -/
theorem create_op_id_checks_claim_false :
    demoState.get_account_by_address mismatchedSignedTx.account =
      some (34, demoAccount) ∧
    mismatchedSignedTx.account_id ≠ 34 ∧
    create_op (fun _ => some 999) demoState mismatchedSignedTx =
      .error .SignatureInvalid ∧
    create_op (fun _ => some 999) demoState mismatchedSignedTx ≠
      .error .AccountIdMismatch := by decide

/-- Claim C6 (amended): resolve fails with `AccountNotFound` when the
address is unbound, regardless of every other field; once the address
resolves and the signature gate passes, a declared id differing from the
resolved id fails with `AccountIdMismatch`, and matching ids exceeding the
protocol maximum fail with `AccountIdOutOfRange`. -/
theorem create_op_rejections (recover : Nat → Option Nat) (s : PlasmaState)
    (tx : ChangePubKey) :
    (s.get_account_by_address tx.account = none →
      create_op recover s tx = .error .AccountNotFound) ∧
    (∀ id acc, s.get_account_by_address tx.account = some (id, acc) →
      (tx.eth_signature = none ∨
        ChangePubKey.verify_eth_signature recover tx = some acc.address) →
      (id ≠ tx.account_id → create_op recover s tx = .error .AccountIdMismatch) ∧
      (id = tx.account_id → max_account_id < id →
        create_op recover s tx = .error .AccountIdOutOfRange)) := by
  constructor
  · intro hnone
    simp [create_op, hnone]
  · intro id acc hsome hgate
    constructor
    · intro hne
      simp only [create_op, hsome]
      rw [if_pos hgate, if_neg hne]
    · intro hid hgt
      simp only [create_op, hsome]
      rw [if_pos hgate, if_pos hid, if_neg (not_le.mpr hgt)]

/-- The scenario transaction with a wrong declared account id (77) and no
signature. -/
def mismatchedTx : ChangePubKey :=
  { account := 2748, account_id := 77, new_pk_hash := 11, nonce := 5,
    fee_token := 0, fee := 3, eth_signature := none }

/-- The scenario account filed under an id beyond the protocol maximum,
with a matching transaction. -/
def bigIdState : PlasmaState := { accounts := [(2 ^ 24, demoAccount)] }

/-- A transaction declaring the out-of-range id. -/
def bigIdTx : ChangePubKey :=
  { account := 2748, account_id := 2 ^ 24, new_pk_hash := 11, nonce := 5,
    fee_token := 0, fee := 3, eth_signature := none }

/-- Witness for the claim C6 theorem: unbound address → `AccountNotFound`;
declared id 77 vs resolved 34 → `AccountIdMismatch`; matching id `2 ^ 24 >
2 ^ 24 − 2` → `AccountIdOutOfRange`. -/
theorem create_op_rejections_witness :
    create_op (fun _ => none) { accounts := [] } demoTx =
      .error .AccountNotFound ∧
    create_op (fun _ => none) demoState mismatchedTx =
      .error .AccountIdMismatch ∧
    create_op (fun _ => none) bigIdState bigIdTx =
      .error .AccountIdOutOfRange := by
  refine ⟨?_, ?_, ?_⟩
  · exact (create_op_rejections (fun _ => none) { accounts := [] } demoTx).1 rfl
  · exact ((create_op_rejections (fun _ => none) demoState mismatchedTx).2
      34 demoAccount rfl (Or.inl rfl)).1 (by decide)
  · exact ((create_op_rejections (fun _ => none) bigIdState bigIdTx).2
      (2 ^ 24) demoAccount rfl (Or.inl rfl)).2 rfl (by decide)

/-- Claim C7: an operation produced by a successful resolve against the
same ledger finds its account at the start of apply, so the unchecked
unwrap — the `MissingAccountPanic` outcome — is unreachable under that
precondition. -/
theorem create_op_guarantees_apply_account (recover : Nat → Option Nat)
    (s : PlasmaState) (tx : ChangePubKey) (op : ChangePubKeyOp)
    (h : create_op recover s tx = .ok op) :
    (s.get_account op.account_id).isSome ∧
    (apply_op s op).1 ≠ .error .MissingAccountPanic := by
  cases hfind : s.get_account_by_address tx.account with
  | none =>
    simp [create_op, hfind] at h
  | some p =>
    obtain ⟨id, acc⟩ := p
    simp only [create_op, hfind] at h
    by_cases hgate : tx.eth_signature = none ∨
        ChangePubKey.verify_eth_signature recover tx = some acc.address
    · rw [if_pos hgate] at h
      by_cases hid : id = tx.account_id
      · rw [if_pos hid] at h
        by_cases hle : id ≤ max_account_id
        · rw [if_pos hle] at h
          have hop : op = { tx := tx, account_id := id } := (Except.ok.inj h).symm
          subst hop
          have hsome : (s.get_account id).isSome :=
            findByAddress_isSome_assocGet s.accounts tx.account id acc hfind
          refine ⟨hsome, ?_⟩
          obtain ⟨acc0, hacc0⟩ := Option.isSome_iff_exists.mp hsome
          simp only [apply_op, hacc0]
          split
          · split <;> simp
          · simp
        · rw [if_neg hle] at h
          simp at h
      · rw [if_neg hid] at h
        simp at h
    · rw [if_neg hgate] at h
      simp at h

/-- Witness for the claim C7 theorem: the scenario resolve succeeds, the
account is present under the resolved id, and apply does not hit the panic
branch. -/
theorem create_op_guarantees_apply_account_witness :
    create_op (fun _ => none) demoState demoTx = .ok demoOp ∧
    (demoState.get_account demoOp.account_id).isSome ∧
    (apply_op demoState demoOp).1 ≠ .error .MissingAccountPanic := by
  have h := create_op_guarantees_apply_account (fun _ => none) demoState
    demoTx demoOp rfl
  exact ⟨rfl, h.1, h.2⟩

/-! ## Claims about the RPC server -/

/-- Claim C8: `get_tx_receipt` writes the receipt cache only with receipts
whose `verified` flag is set: every binding of the output cache is an old
binding or a verified receipt; an unverified receipt fetched from storage
is returned to the caller with the cache untouched; a verified one is
returned and cached. -/
theorem get_tx_receipt_caches_only_verified
    (storage : Nat → Except RpcError (Option TxReceiptResponse))
    (cache : List (Nat × TxReceiptResponse)) (tx_hash : Nat) :
    (∀ p, p ∈ (get_tx_receipt storage cache tx_hash).2 →
      p ∈ cache ∨ p.2.verified = true) ∧
    (∀ r, assocGet cache tx_hash = none → storage tx_hash = .ok (some r) →
      r.verified = false →
      get_tx_receipt storage cache tx_hash = (.ok (some r), cache)) ∧
    (∀ r, assocGet cache tx_hash = none → storage tx_hash = .ok (some r) →
      r.verified = true →
      get_tx_receipt storage cache tx_hash =
        (.ok (some r), assocSet cache tx_hash r)) := by
  refine ⟨?_, ?_, ?_⟩
  · intro p hp
    cases hc : assocGet cache tx_hash with
    | some r0 =>
      simp only [get_tx_receipt, hc] at hp
      exact Or.inl hp
    | none =>
      cases hs : storage tx_hash with
      | error e =>
        simp only [get_tx_receipt, hc, hs] at hp
        exact Or.inl hp
      | ok ro =>
        cases ro with
        | none =>
          simp only [get_tx_receipt, hc, hs] at hp
          exact Or.inl hp
        | some r =>
          by_cases hv : r.verified = true
          · simp only [get_tx_receipt, hc, hs, hv, if_true] at hp
            rcases mem_assocSet cache tx_hash r p hp with h1 | h1
            · exact Or.inl h1
            · right
              rw [h1]
              exact hv
          · simp only [get_tx_receipt, hc, hs, if_neg hv] at hp
            exact Or.inl hp
  · intro r hc hs hv
    simp [get_tx_receipt, hc, hs, hv]
  · intro r hc hs hv
    simp [get_tx_receipt, hc, hs, hv]

/-- A receipt whose `verified` flag is off. -/
def unverifiedReceipt : TxReceiptResponse := { verified := false, payload := 7 }

/-- A receipt whose `verified` flag is on. -/
def verifiedReceipt : TxReceiptResponse := { verified := true, payload := 7 }

/-- Witness for the claim C8 theorem: on a cache miss, an unverified
receipt is returned with the cache still empty, a verified one is returned
and cached, and the cached binding is accounted for as verified. -/
theorem get_tx_receipt_caches_only_verified_witness :
    get_tx_receipt (fun _ => .ok (some unverifiedReceipt)) [] 5 =
      (.ok (some unverifiedReceipt), []) ∧
    get_tx_receipt (fun _ => .ok (some verifiedReceipt)) [] 5 =
      (.ok (some verifiedReceipt), [(5, verifiedReceipt)]) ∧
    ((5, verifiedReceipt) ∈ ([] : List (Nat × TxReceiptResponse)) ∨
      verifiedReceipt.verified = true) := by
  have h1 := get_tx_receipt_caches_only_verified
    (fun _ => .ok (some unverifiedReceipt)) [] 5
  have h2 := get_tx_receipt_caches_only_verified
    (fun _ => .ok (some verifiedReceipt)) [] 5
  refine ⟨h1.2.1 unverifiedReceipt rfl rfl rfl, ?_, ?_⟩
  · rw [h2.2.2 verifiedReceipt rfl rfl rfl]
    rfl
  · exact h2.1 (5, verifiedReceipt) (by decide)

/-- Claim C9: each fee-ticker helper ends in the process-fatal panic
outcome whenever the request channel's receiver or the one-shot response
sender is gone, and produces an RPC error result only from an error value
the ticker itself sent back. -/
theorem ticker_helpers_fail_fast (rd : Bool)
    (respAllowed : Option (Except String Bool))
    (respBatch : Option (Except String Nat))
    (respFee : Option (Except String Nat))
    (respPrice : Option (Except PriceError Nat)) :
    ((rd = true ∨ respAllowed = none) →
      ∃ msg, token_allowed_for_fees rd respAllowed = .processPanic msg) ∧
    (∀ e, token_allowed_for_fees rd respAllowed = .rpcError e →
      ∃ err, respAllowed = some (.error err)) ∧
    ((rd = true ∨ respBatch = none) →
      ∃ msg, ticker_batch_fee_request rd respBatch = .processPanic msg) ∧
    (∀ e, ticker_batch_fee_request rd respBatch = .rpcError e →
      ∃ err, respBatch = some (.error err)) ∧
    ((rd = true ∨ respFee = none) →
      ∃ msg, ticker_request rd respFee = .processPanic msg) ∧
    (∀ e, ticker_request rd respFee = .rpcError e →
      ∃ err, respFee = some (.error err)) ∧
    ((rd = true ∨ respPrice = none) →
      ∃ msg, ticker_price_request rd respPrice = .processPanic msg) ∧
    (∀ e, ticker_price_request rd respPrice = .rpcError e →
      ∃ err, respPrice = some (.error err)) := by
  refine ⟨?_, ?_, ?_, ?_, ?_, ?_, ?_, ?_⟩
  · rintro (hrd | hresp)
    · exact ⟨"ticker receiver dropped", by simp [token_allowed_for_fees, hrd]⟩
    · cases rd
      · exact ⟨"ticker answer sender dropped",
          by simp [token_allowed_for_fees, hresp]⟩
      · exact ⟨"ticker receiver dropped", by simp [token_allowed_for_fees]⟩
  · intro e he
    cases rd
    · cases respAllowed with
      | none => simp [token_allowed_for_fees] at he
      | some x =>
        cases x with
        | error err => exact ⟨err, rfl⟩
        | ok v => simp [token_allowed_for_fees] at he
    · simp [token_allowed_for_fees] at he
  · rintro (hrd | hresp)
    · exact ⟨"ticker receiver dropped", by simp [ticker_batch_fee_request, hrd]⟩
    · cases rd
      · exact ⟨"ticker answer sender dropped",
          by simp [ticker_batch_fee_request, hresp]⟩
      · exact ⟨"ticker receiver dropped", by simp [ticker_batch_fee_request]⟩
  · intro e he
    cases rd
    · cases respBatch with
      | none => simp [ticker_batch_fee_request] at he
      | some x =>
        cases x with
        | error err => exact ⟨err, rfl⟩
        | ok v => simp [ticker_batch_fee_request] at he
    · simp [ticker_batch_fee_request] at he
  · rintro (hrd | hresp)
    · exact ⟨"ticker receiver dropped", by simp [ticker_request, hrd]⟩
    · cases rd
      · exact ⟨"ticker answer sender dropped", by simp [ticker_request, hresp]⟩
      · exact ⟨"ticker receiver dropped", by simp [ticker_request]⟩
  · intro e he
    cases rd
    · cases respFee with
      | none => simp [ticker_request] at he
      | some x =>
        cases x with
        | error err => exact ⟨err, rfl⟩
        | ok v => simp [ticker_request] at he
    · simp [ticker_request] at he
  · rintro (hrd | hresp)
    · exact ⟨"ticker receiver dropped", by simp [ticker_price_request, hrd]⟩
    · cases rd
      · exact ⟨"ticker answer sender dropped",
          by simp [ticker_price_request, hresp]⟩
      · exact ⟨"ticker receiver dropped", by simp [ticker_price_request]⟩
  · intro e he
    cases rd
    · cases respPrice with
      | none => simp [ticker_price_request] at he
      | some x =>
        cases x with
        | error err => exact ⟨err, rfl⟩
        | ok v =>
          simp [ticker_price_request] at he
    · simp [ticker_price_request] at he

/-- Witness for the claim C9 theorem: with the receiver gone every helper
panics; with a delivered ticker-side error each helper that reports
`rpcError` does so only because the response really was an error. -/
theorem ticker_helpers_fail_fast_witness :
    (∃ msg, token_allowed_for_fees true none = .processPanic msg) ∧
    (∃ msg, ticker_batch_fee_request true none = .processPanic msg) ∧
    (∃ msg, ticker_request false none = .processPanic msg) ∧
    (∃ msg, ticker_price_request true none = .processPanic msg) ∧
    (∃ err, (some (.error "boom") : Option (Except String Bool)) =
      some (.error err)) ∧
    (∃ err, (some (.error (.api_error "boom")) : Option (Except PriceError Nat)) =
      some (.error err)) := by
  have hPanic := ticker_helpers_fail_fast true none none none none
  have hSender := ticker_helpers_fail_fast false none none none none
  have hErr := ticker_helpers_fail_fast false (some (.error "boom"))
    (some (.error "boom")) (some (.error "boom"))
    (some (.error (.api_error "boom")))
  exact ⟨hPanic.1 (Or.inl rfl), hPanic.2.2.1 (Or.inl rfl),
    hSender.2.2.2.2.1 (Or.inr rfl), hPanic.2.2.2.2.2.2.1 (Or.inl rfl),
    hErr.2.1 .internal_error rfl, hErr.2.2.2.2.2.2.2 .internal_error rfl⟩

/-- Every IP-tracked method has at least one declared parameter slot, so
the IP position exists. -/
theorem methods_with_ip_max_pos (m : String) (d : MethodWithIpDescription)
    (h : methods_with_ip m = some d) : 1 ≤ d.maximum_params := by
  unfold methods_with_ip at h
  split_ifs at h <;>
    first
    | exact Option.noConfusion h
    | (cases Option.some.inj h; decide)

/-- Claim C10: on an IP-tracked method with array parameters of in-bounds
length, the middleware drops a client value occupying the IP position, pads
the missing optional positions with `Null`, and makes the server-derived IP
the last parameter of a full-arity list — and the rewritten call keeps the
method and envelope; every other call (untracked method, non-array
parameters, or out-of-bounds arity) is returned unchanged. -/
theorem ip_middleware_characterization (call : MethodCall) (ip : String) :
    (∀ d xs, methods_with_ip call.method = some d → call.params = .array xs →
      d.minimum_params ≤ xs.length → xs.length ≤ d.maximum_params →
      get_call_with_ip_if_needed call ip =
        { call with params := .array (
            (if xs.length = d.maximum_params then xs.dropLast else xs) ++
            List.replicate (d.maximum_params - 1 -
              (if xs.length = d.maximum_params then xs.dropLast
               else xs).length) JValue.null ++
            [JValue.str ip]) } ∧
      ∃ ys, (get_call_with_ip_if_needed call ip).params = .array ys ∧
        ys.length = d.maximum_params ∧
        ys.getLast? = some (.str ip)) ∧
    (methods_with_ip call.method = none →
      get_call_with_ip_if_needed call ip = call) ∧
    (∀ t, call.params = .map t → get_call_with_ip_if_needed call ip = call) ∧
    (call.params = .noParams → get_call_with_ip_if_needed call ip = call) ∧
    (∀ d xs, methods_with_ip call.method = some d → call.params = .array xs →
      (d.maximum_params < xs.length ∨ xs.length < d.minimum_params) →
      get_call_with_ip_if_needed call ip = call) := by
  refine ⟨?_, ?_, ?_, ?_, ?_⟩
  · intro d xs hd hxs hmin hmax
    have hcond : ¬ (xs.length > d.maximum_params ∨
        xs.length < d.minimum_params) :=
      not_or.mpr ⟨not_lt.mpr hmax, not_lt.mpr hmin⟩
    have hmaxpos : 1 ≤ d.maximum_params := methods_with_ip_max_pos _ d hd
    have hlen1 : (if xs.length = d.maximum_params then xs.dropLast
        else xs).length ≤ d.maximum_params - 1 := by
      by_cases hfull : xs.length = d.maximum_params
      · simp [hfull]
      · rw [if_neg hfull]
        omega
    constructor
    · simp only [get_call_with_ip_if_needed, hd, hxs]
      rw [if_neg hcond]
    · refine ⟨(if xs.length = d.maximum_params then xs.dropLast else xs) ++
        List.replicate (d.maximum_params - 1 -
          (if xs.length = d.maximum_params then xs.dropLast
           else xs).length) JValue.null ++ [JValue.str ip], ?_, ?_, ?_⟩
      · simp only [get_call_with_ip_if_needed, hd, hxs]
        rw [if_neg hcond]
      · simp only [List.length_append, List.length_replicate,
          List.length_cons, List.length_nil]
        omega
      · simp
  · intro hnone
    simp [get_call_with_ip_if_needed, hnone]
  · intro t ht
    cases hd : methods_with_ip call.method with
    | none => simp [get_call_with_ip_if_needed, hd]
    | some d => simp [get_call_with_ip_if_needed, hd, ht]
  · intro ht
    cases hd : methods_with_ip call.method with
    | none => simp [get_call_with_ip_if_needed, hd]
    | some d => simp [get_call_with_ip_if_needed, hd, ht]
  · intro d xs hd hxs hout
    have hcond : xs.length > d.maximum_params ∨ xs.length < d.minimum_params := by
      rcases hout with h1 | h1
      · exact Or.inl h1
      · exact Or.inr h1
    simp only [get_call_with_ip_if_needed, hd, hxs]
    rw [if_pos hcond]

/-- A `tx_submit` call with one parameter — below full arity. -/
def trackedCall : MethodCall :=
  { method := "tx_submit", params := .array [.other 1], envelope := 0 }

/-- A `get_tx_fee` call at full arity whose last position carries a
client-supplied IP. -/
def fullArityCall : MethodCall :=
  { method := "get_tx_fee",
    params := .array [.other 1, .other 2, .other 3, .str "9.9.9.9"],
    envelope := 0 }

/-- A call to a method outside the IP-tracked set. -/
def untrackedCall : MethodCall :=
  { method := "foo", params := .array [.other 1], envelope := 0 }

/-- A tracked-method call with map-shaped parameters. -/
def mapCall : MethodCall :=
  { method := "tx_submit", params := .map 3, envelope := 0 }

/-- A tracked-method call with too few parameters. -/
def shortCall : MethodCall :=
  { method := "get_tx_fee", params := .array [.other 1], envelope := 0 }

/-- Witness for the claim C10 theorem: a one-parameter `tx_submit` gains
two `Null` pads and the server IP; a full-arity `get_tx_fee` has the
client-supplied IP "9.9.9.9" replaced by the server's; an untracked
method, map parameters, and under-arity parameters pass through
unchanged. -/
theorem ip_middleware_characterization_witness :
    methods_with_ip "tx_submit" = some ⟨1, 4⟩ ∧
    get_call_with_ip_if_needed trackedCall "8.8.8.8" =
      { method := "tx_submit",
        params := .array [.other 1, .null, .null, .str "8.8.8.8"],
        envelope := 0 } ∧
    get_call_with_ip_if_needed fullArityCall "8.8.8.8" =
      { method := "get_tx_fee",
        params := .array [.other 1, .other 2, .other 3, .str "8.8.8.8"],
        envelope := 0 } ∧
    get_call_with_ip_if_needed untrackedCall "8.8.8.8" = untrackedCall ∧
    get_call_with_ip_if_needed mapCall "8.8.8.8" = mapCall ∧
    get_call_with_ip_if_needed shortCall "8.8.8.8" = shortCall := by
  have h1 := ip_middleware_characterization trackedCall "8.8.8.8"
  have h2 := ip_middleware_characterization fullArityCall "8.8.8.8"
  have h3 := ip_middleware_characterization untrackedCall "8.8.8.8"
  have h4 := ip_middleware_characterization mapCall "8.8.8.8"
  have h5 := ip_middleware_characterization shortCall "8.8.8.8"
  refine ⟨rfl, ?_, ?_, h3.2.1 rfl, h4.2.2.1 3 rfl,
    h5.2.2.2.2 ⟨3, 4⟩ [.other 1] rfl rfl (Or.inr (by decide))⟩
  · rw [(h1.1 ⟨1, 4⟩ [.other 1] rfl rfl (by decide) (by decide)).1]
    rfl
  · rw [(h2.1 ⟨3, 4⟩ [.other 1, .other 2, .other 3, .str "9.9.9.9"]
      rfl rfl (by decide) (by decide)).1]
    rfl

end ZkSync
